import Mathlib

/-!
Verification of the keystroke-sender native-messaging host
(`src/keystroke_sender/host.py`) against its specification.

The embedding below models, straight from the Python source:

* the frame codec `read_message` / `send_message` (4-byte native-order
  length prefix, 1 MiB cap), with byte streams as `List Nat`;
* the sliding-window rate limiter `_check_rate_limit` (timestamps as
  rationals, which model the float arithmetic exactly at the values the
  claims exercise);
* the request dispatcher of `main` (action resolution, `type` and
  `click` handlers, exception-to-error-response conversion), with the
  `pynput` input injector abstracted as an oracle whose per-call result
  is a parameter, and the calls actually issued recorded in a list;
* one iteration of the main loop (`mainIter`), faithful to the source's
  exception flow: `json.loads` runs inside `read_message`, so a JSON
  decode failure is raised out of `read_message` and caught by the
  `except ValueError` arm of the loop, before the `last_activity`
  update on line 162;
* the compact `json.dumps` serialization of the three response shapes
  (`ensure_ascii` escaping included), together with an executable
  decoder used to state the round-trip claim.

JSON values are modelled by `JVal` (strings, numbers as exact
rationals, booleans, null); arrays and objects cannot occur in the
fields the claims touch and are omitted.
-/

namespace KeystrokeSender

/-- Configuration constant from `host.py` line 33. -/
def MAX_MESSAGE_BYTES : Nat := 1048576

/-- Configuration constant from `host.py` line 34. -/
def MAX_TEXT_LENGTH : Nat := 10000

/-- Configuration constant from `host.py` line 37. -/
def RATE_LIMIT_MAX : Nat := 20

/-- JSON scalar values as they reach the dispatcher after `json.loads`.
Numbers are exact rationals (JSON ints and the floats the claims use
are represented exactly). -/
inductive JVal where
  | str (s : String)
  | num (q : Rat)
  | bool (b : Bool)
  | null
deriving DecidableEq

/-- A decoded request dictionary, restricted to the keys `main` reads.
`none` models an absent key; `some .null` a key bound to JSON null. -/
structure Message where
  action : Option JVal := none
  text : Option JVal := none
  delay : Option JVal := none
  x : Option JVal := none
  y : Option JVal := none
deriving DecidableEq

/-- Python's `dict.get(key)`: an absent key and a key bound to `None`
both read back as `None`. -/
def mget (o : Option JVal) : Option JVal :=
  match o with
  | some JVal.null => none
  | some v => some v
  | none => none

/-- A response dictionary as passed to `send_message` (`host.py` lines
197, 203, 216 for the success shapes; every error arm uses the
`status`/`message` shape). -/
inductive Response where
  | okTyped (typed : Nat)
  | okClick (x y : Int)
  | error (message : String)
deriving DecidableEq

/-- One call into the input injector (`pynput`): a single
`keyboard.type(char)` or one `click_at(x, y)`. -/
inductive Call where
  | typeChar (c : Char)
  | click (x y : Int)
deriving DecidableEq

/-- Python `int()` truncation toward zero, applied by `main` to the
click coordinates (`host.py` lines 212-213). -/
def pyTrunc (q : Rat) : Int :=
  if 0 ≤ q then ⌊q⌋ else ⌈q⌉

/-- Python `int(v)` on a decoded JSON value: numbers truncate toward
zero, booleans coerce to 0/1, strings parse or raise `ValueError`,
`None` raises `TypeError` (messages abbreviated; no claim reads them). -/
def pyInt (v : JVal) : Except String Int :=
  match v with
  | JVal.num q => Except.ok (pyTrunc q)
  | JVal.bool b => Except.ok (if b then 1 else 0)
  | JVal.str s =>
    match s.toInt? with
    | some i => Except.ok i
    | none => Except.error ("invalid literal for int() with base 10: " ++ s)
  | JVal.null => Except.error "int() argument must be a number, not NoneType"

/-- The Python comparison `delay > 0` inside `type_text` (`host.py`
line 95): defined on numbers and booleans, raises `TypeError` on
strings and `None` (message abbreviated; no claim reads it). -/
def pyGtZero (v : JVal) : Except String Bool :=
  match v with
  | JVal.num q => Except.ok (decide (0 < q))
  | JVal.bool b => Except.ok b
  | JVal.str _ => Except.error "TypeError: unsupported comparison with int"
  | JVal.null => Except.error "TypeError: unsupported comparison with int"

/-- Python `str(v)` as used by the f-string in the unknown-action
message (`host.py` line 219). Only the string case is exercised by the
claims; number formatting is the exact-rational rendering. -/
def pyStr (v : JVal) : String :=
  match v with
  | JVal.str s => s
  | JVal.num q => toString q
  | JVal.bool b => if b then "True" else "False"
  | JVal.null => "None"

/-- `type_text` (`host.py` lines 77-97) with the `pynput` keyboard
abstracted: `injT c` is the outcome of `keyboard.type(c)`. Returns the
count result (an exception aborts the loop and propagates) and the
list of characters actually dispatched to the injector. The `delay > 0`
comparison is evaluated each iteration, after the keystroke. -/
def typeText (injT : Char → Except String Unit) : List Char → JVal → Except String Nat × List Char
  | [], _ => (Except.ok 0, [])
  | c :: cs, d =>
    match injT c with
    | Except.error e => (Except.error e, [c])
    | Except.ok _ =>
      match pyGtZero d with
      | Except.error e => (Except.error e, [c])
      | Except.ok _ =>
        match typeText injT cs d with
        | (Except.ok n, calls) => (Except.ok (n + 1), c :: calls)
        | (Except.error e, calls) => (Except.error e, c :: calls)

/-- Decimal digits of a natural number, most significant first, as
Python `str(int)` prints it. -/
def natChars (n : Nat) : List Char :=
  if n < 10 then [Nat.digitChar n]
  else natChars (n / 10) ++ [Nat.digitChar (n % 10)]
decreasing_by exact Nat.div_lt_self (by omega) (by omega)

/-- Decimal rendering of a natural, as Python `str(int)` prints it. -/
def natStr (n : Nat) : String := String.mk (natChars n)

/-- Action resolution (`host.py` lines 174-180): an explicit `action`
key wins; otherwise a present `text` key implies `"type"`; otherwise
the request is missing its action. -/
def mgetAction (m : Message) : Option JVal :=
  match mget m.action with
  | some a => some a
  | none => if m.text.isSome then some (JVal.str "type") else none

/-- The dispatcher: `host.py` lines 174-226, everything after the rate
limiter inside the `try` block, with exceptions already converted to
error responses (lines 224-226). `injC x y` is the outcome of
`click_at(x, y)`. Returns the response sent and the injector calls
made. -/
def dispatch (injT : Char → Except String Unit) (injC : Int → Int → Except String Unit)
    (m : Message) : Response × List Call :=
  match mgetAction m with
  | none => (Response.error "Missing \x27action\x27 field", [])
  | some a =>
    if a = JVal.str "type" then
      match mget m.text with
      | none => (Response.error "Missing \x27text\x27 field", [])
      | some (JVal.str s) =>
        if s.length > MAX_TEXT_LENGTH then
          (Response.error ("Text too long (" ++ natStr s.length ++ " chars, limit 10000)"), [])
        else if s.length = 0 then
          (Response.okTyped 0, [])
        else
          let d := match m.delay with
            | none => JVal.num (1 / 20)
            | some dv => dv
          match typeText injT s.data d with
          | (Except.ok n, calls) => (Response.okTyped n, calls.map Call.typeChar)
          | (Except.error e, calls) => (Response.error e, calls.map Call.typeChar)
      | some _ => (Response.error "\x27text\x27 must be a string", [])
    else if a = JVal.str "click" then
      match mget m.x, mget m.y with
      | some xv, some yv =>
        (match pyInt xv with
        | Except.error e => (Response.error e, [])
        | Except.ok xi =>
          match pyInt yv with
          | Except.error e => (Response.error e, [])
          | Except.ok yi =>
            match injC xi yi with
            | Except.ok _ => (Response.okClick xi yi, [Call.click xi yi])
            | Except.error e => (Response.error e, [Call.click xi yi]))
      | _, _ => (Response.error "Missing \x27x\x27 or \x27y\x27 for click", [])
    else
      (Response.error ("Unknown action: " ++ pyStr a), [])

/-- The `while timestamps and timestamps[0] <= now - RATE_LIMIT_WINDOW:
timestamps.pop(0)` loop of `_check_rate_limit` (`host.py` lines
120-121), with the window `1.0` exact. -/
def prune : List Rat → Rat → List Rat
  | [], _ => []
  | t :: ts, cutoff => if t ≤ cutoff then prune ts cutoff else t :: ts

/-- `_check_rate_limit` (`host.py` lines 116-125) as a function of the
timestamp list and the current monotonic time: returns the admission
verdict and the list as left mutated. -/
def checkRateLimit (timestamps : List Rat) (now : Rat) : Bool × List Rat :=
  let pruned := prune timestamps (now - 1)
  if pruned.length ≥ RATE_LIMIT_MAX then (false, pruned)
  else (true, pruned ++ [now])

/-- `struct.pack("@I", n)` for `n < 2^32` on a little-endian host
(native byte order; the claims only need that unpack inverts pack). -/
def pack4 (n : Nat) : List Nat :=
  [n % 256, n / 256 % 256, n / 65536 % 256, n / 16777216 % 256]

/-- `struct.unpack("@I", bytes)` on a 4-byte little-endian prefix. -/
def unpack4 (l : List Nat) : Nat :=
  match l with
  | [a, b, c, d] => a + 256 * b + 65536 * c + 16777216 * d
  | _ => 0

/-- Outcome of the framing part of `read_message`: `exits c` models
`sys.exit(c)`, `tooLarge` the `ValueError` raised on an oversized
declared length, `frame` a fully delivered payload. -/
inductive ReadEvent where
  | exits (code : Nat)
  | tooLarge (declared : Nat)
  | frame (payload : List Nat)
deriving DecidableEq

/-- The framing part of `read_message` (`host.py` lines 46-65) over the
stream of available stdin bytes: read 4 bytes (0 available → exit 0,
1-3 → exit 1), decode the length, reject above `MAX_MESSAGE_BYTES`
without draining, then read exactly that many body bytes (fewer
available → exit 1). Returns the event and the unread remainder. -/
def read_message (input : List Nat) : ReadEvent × List Nat :=
  let rawLength := input.take 4
  if rawLength.length = 0 then (ReadEvent.exits 0, [])
  else if rawLength.length < 4 then (ReadEvent.exits 1, [])
  else
    let messageLength := unpack4 rawLength
    if messageLength > MAX_MESSAGE_BYTES then (ReadEvent.tooLarge messageLength, input.drop 4)
    else
      let rawMessage := (input.drop 4).take messageLength
      if rawMessage.length < messageLength then (ReadEvent.exits 1, [])
      else (ReadEvent.frame rawMessage, (input.drop 4).drop messageLength)

/-- Observable effects of one iteration of the `while True` loop of
`main` (`host.py` lines 154-226). -/
structure IterOut where
  responses : List Response
  activityUpdated : Bool
  timestamps : List Rat
  exitCode : Option Nat
  rest : List Nat
deriving DecidableEq

/-- One iteration of the main loop (`host.py` lines 154-226). `decode`
models `json.loads` on the payload bytes; in the source it runs inside
`read_message` (line 66), so a decode failure propagates as a
`ValueError` (its `JSONDecodeError` subclass) and is caught by the
`except ValueError` arm on line 157 — before the `last_activity`
update on line 162, and making the `except json.JSONDecodeError` arm
on line 221 unreachable. `now` is the `time.monotonic()` value the
rate limiter reads. -/
def mainIter (decode : List Nat → Except String Message)
    (injT : Char → Except String Unit) (injC : Int → Int → Except String Unit)
    (timestamps : List Rat) (now : Rat) (input : List Nat) : IterOut :=
  match read_message input with
  | (ReadEvent.exits code, _) => ⟨[], false, timestamps, some code, []⟩
  | (ReadEvent.tooLarge _, rest) =>
    ⟨[Response.error "Message exceeds 1048576 byte limit"], false, timestamps, none, rest⟩
  | (ReadEvent.frame payload, rest) =>
    match decode payload with
    | Except.error e => ⟨[Response.error e], false, timestamps, none, rest⟩
    | Except.ok m =>
      let rl := checkRateLimit timestamps now
      if rl.1 = false then
        ⟨[Response.error "Rate limit exceeded (20 actions per 1.0s)"], true, rl.2, none, rest⟩
      else
        ⟨[(dispatch injT injC m).1], true, rl.2, none, rest⟩

/-! ### The compact JSON serialization of responses

`send_message` encodes with `json.dumps(obj, separators=(",", ":"))`
and UTF-8; with the default `ensure_ascii=True` every character
outside printable ASCII is `\uXXXX`-escaped, so the payload is pure
ASCII and one `Char` per byte. -/

/-- Decimal digits of an integer, with a leading minus sign when
negative, as Python prints JSON numbers. -/
def intChars (i : Int) : List Char :=
  if i < 0 then '-' :: natChars i.natAbs else natChars i.toNat

/-- Four lowercase hex digits of `n % 65536`, as in a `\uXXXX` escape. -/
def hexChars4 (n : Nat) : List Char :=
  [Nat.digitChar (n / 4096 % 16), Nat.digitChar (n / 256 % 16),
   Nat.digitChar (n / 16 % 16), Nat.digitChar (n % 16)]

/-- `json.dumps` escaping of one character (`ensure_ascii=True`): the
seven short escapes, `\uXXXX` for other control and non-ASCII
characters, and a UTF-16 surrogate pair above the BMP. -/
def escChar (c : Char) : List Char :=
  if c = '"' then ['\\', '"']
  else if c = '\\' then ['\\', '\\']
  else if c = Char.ofNat 8 then ['\\', 'b']
  else if c = Char.ofNat 12 then ['\\', 'f']
  else if c = '\n' then ['\\', 'n']
  else if c = '\r' then ['\\', 'r']
  else if c = '\t' then ['\\', 't']
  else if c.toNat < 32 then '\\' :: 'u' :: hexChars4 c.toNat
  else if c.toNat ≤ 126 then [c]
  else if c.toNat < 65536 then '\\' :: 'u' :: hexChars4 c.toNat
  else
    ('\\' :: 'u' :: hexChars4 (55296 + (c.toNat - 65536) / 1024))
      ++ ('\\' :: 'u' :: hexChars4 (56320 + (c.toNat - 65536) % 1024))

/-- `json.dumps` escaping of a character sequence. -/
def escape : List Char → List Char
  | [] => []
  | c :: cs => escChar c ++ escape cs

/-- Literal prefix of the serialized `{"status": "ok", "typed": n}`
response (`host.py` lines 197 and 203). -/
def okTypedPre : List Char := "\x7b\"status\":\"ok\",\"typed\":".data

/-- Literal prefix of the serialized click success response
(`host.py` line 216). -/
def okClickPre : List Char := "\x7b\"status\":\"ok\",\"action\":\"click\",\"x\":".data

/-- Literal prefix of the serialized error response. -/
def errPre : List Char := "\x7b\"status\":\"error\",\"message\":\"".data

/-- `json.dumps(message_obj, separators=(",", ":"))` for the three
response shapes the host sends, character by character. -/
def encodeResponse : Response → List Char
  | Response.okTyped n => okTypedPre ++ natChars n ++ ['\x7d']
  | Response.okClick x y =>
    okClickPre ++ intChars x ++ ",\"y\":".data ++ intChars y ++ ['\x7d']
  | Response.error m => errPre ++ escape m.data ++ ['"', '\x7d']

/-- The UTF-8 bytes of a serialized response (all ASCII under
`ensure_ascii=True`, so one byte per character). -/
def encBytes (r : Response) : List Nat := (encodeResponse r).map Char.toNat

/-- `send_message` (`host.py` lines 69-74): the 4-byte native-order
length prefix followed by the encoded payload. -/
def send_message (r : Response) : List Nat :=
  pack4 (encBytes r).length ++ encBytes r

/-! ### An executable decoder for serialized responses -/

/-- Match a literal prefix and return the remainder. -/
def checkPre : List Char → List Char → Option (List Char)
  | [], r => some r
  | a :: as, r =>
    match r with
    | [] => none
    | b :: bs => if a = b then checkPre as bs else none

/-- Consume leading decimal digits into an accumulator. -/
def readNat (acc : Nat) : List Char → Nat × List Char
  | [] => (acc, [])
  | c :: r => if c.isDigit then readNat (acc * 10 + (c.toNat - 48)) r else (acc, c :: r)

/-- Consume an optionally minus-signed decimal integer. -/
def readInt (l : List Char) : Int × List Char :=
  match l with
  | [] => (0, [])
  | c :: r =>
    if c = '-' then
      let p := readNat 0 r
      (-(p.1 : Int), p.2)
    else
      let p := readNat 0 (c :: r)
      ((p.1 : Int), p.2)

/-- Value of a hex digit character (lowercase letters). -/
def hexVal (c : Char) : Nat :=
  if 97 ≤ c.toNat then c.toNat - 87 else c.toNat - 48

/-- Value of four hex digit characters. -/
def hex4 (a b c d : Char) : Nat :=
  ((hexVal a * 16 + hexVal b) * 16 + hexVal c) * 16 + hexVal d

/-- Decode the single-character escape payload of a surrogate-aware
`\\uXXXX` escape: a high surrogate must be followed by a second escape
holding the low surrogate. -/
def unescHex (v : Nat) (t : List Char) : Option (Char × List Char) :=
  if 55296 ≤ v ∧ v < 56320 then
    match t with
    | b2 :: u2 :: g1 :: g2 :: g3 :: g4 :: t3 =>
      if b2 = '\\' ∧ u2 = 'u' then
        if 56320 ≤ hex4 g1 g2 g3 g4 ∧ hex4 g1 g2 g3 g4 < 57344 then
          some (Char.ofNat ((v - 55296) * 1024 + (hex4 g1 g2 g3 g4 - 56320) + 65536), t3)
        else none
      else none
    | _ => none
  else some (Char.ofNat v, t)

/-- Decode one escape sequence (the characters after a `\\`), undoing
what `escChar` produces. -/
def unescEsc : List Char → Option (Char × List Char)
  | [] => none
  | e :: t =>
    if e = '"' then some ('"', t)
    else if e = '\\' then some ('\\', t)
    else if e = 'b' then some (Char.ofNat 8, t)
    else if e = 'f' then some (Char.ofNat 12, t)
    else if e = 'n' then some ('\n', t)
    else if e = 'r' then some ('\r', t)
    else if e = 't' then some ('\t', t)
    else if e = 'u' then
      match t with
      | h1 :: h2 :: h3 :: h4 :: t2 => unescHex (hex4 h1 h2 h3 h4) t2
      | _ => none
    else none

/-- Consume a JSON string body up to its closing quote, undoing the
escapes `escChar` produces (including surrogate pairs). The fuel
argument bounds the number of decoded characters; one unit is spent
per output character, so the input length is always enough. -/
def readStrF : Nat → List Char → Option (List Char × List Char)
  | 0, _ => none
  | fuel + 1, l =>
    match l with
    | [] => none
    | c :: r =>
      if c = '"' then some ([], r)
      else if c = '\\' then
        match unescEsc r with
        | some (d, t) => (readStrF fuel t).map (fun p => (d :: p.1, p.2))
        | none => none
      else (readStrF fuel r).map (fun p => (c :: p.1, p.2))

/-- Decode a serialized response back to a `Response` value. -/
def decodeResponse (l : List Char) : Option Response :=
  match checkPre okTypedPre l with
  | some r1 =>
    let p := readNat 0 r1
    if p.2 = ['\x7d'] then some (Response.okTyped p.1) else none
  | none =>
    match checkPre okClickPre l with
    | some r1 =>
      let p1 := readInt r1
      match checkPre ",\"y\":".data p1.2 with
      | some r2 =>
        let p2 := readInt r2
        if p2.2 = ['\x7d'] then some (Response.okClick p1.1 p2.1) else none
      | none => none
    | none =>
      match checkPre errPre l with
      | some r1 =>
        match readStrF r1.length r1 with
        | some p => if p.2 = ['\x7d'] then some (Response.error (String.mk p.1)) else none
        | none => none
      | none => none

/-- An injector whose keyboard calls all succeed. -/
def injOk : Char → Except String Unit := fun _ => Except.ok ()

/-- An injector whose click calls all succeed. -/
def injcOk : Int → Int → Except String Unit := fun _ _ => Except.ok ()

/-- A `json.loads` model failing the way CPython reports `b"x"`. -/
def decodeFailStub : List Nat → Except String Message :=
  fun _ => Except.error "Expecting value: line 1 column 1 (char 0)"

/-- A complete frame (length prefix 1, one body byte `x`) whose
payload is not valid JSON. -/
def invalidJsonFrame : List Nat := [1, 0, 0, 0, 120]

/-- A 10,001-character text, one over the `MAX_TEXT_LENGTH` limit. -/
def longText : String := String.mk (List.replicate 10001 'a')

/-- Proof-side helper: `10 ^ (number of decimal digits of n)`. -/
def tenPow (n : Nat) : Nat :=
  if n < 10 then 10 else tenPow (n / 10) * 10
decreasing_by exact Nat.div_lt_self (by omega) (by omega)

/-! ### Lemmas: decimal digits -/

theorem digitChar_isDigit (k : Nat) (h : k < 10) : (Nat.digitChar k).isDigit = true := by
  interval_cases k <;> decide

theorem digitChar_toNat (k : Nat) (h : k < 10) : (Nat.digitChar k).toNat - 48 = k := by
  interval_cases k <;> decide

theorem digitChar_ne_minus (k : Nat) (h : k < 10) : Nat.digitChar k ≠ '-' := by
  interval_cases k <;> decide

theorem readNat_natChars (n : Nat) : ∀ (acc : Nat) (rest : List Char),
    readNat acc (natChars n ++ rest) = readNat (acc * tenPow n + n) rest := by
  induction n using natChars.induct with
  | case1 n h =>
    intro acc rest
    rw [natChars, tenPow]
    simp only [h, if_pos]
    simp only [List.cons_append, List.nil_append, readNat,
      digitChar_isDigit n h, if_pos, digitChar_toNat n h]
    rfl
  | case2 n h ih =>
    intro acc rest
    rw [natChars, tenPow]
    simp only [h, if_neg, if_false]
    rw [List.append_assoc, ih]
    simp only [List.cons_append, List.nil_append, readNat,
      digitChar_isDigit (n % 10) (by omega), if_pos,
      digitChar_toNat (n % 10) (by omega)]
    congr 1
    rw [← Nat.mul_assoc]
    generalize acc * tenPow (n / 10) = k
    omega

theorem natChars_head (n : Nat) :
    ∃ k t, k < 10 ∧ natChars n = Nat.digitChar k :: t := by
  induction n using natChars.induct with
  | case1 n h => exact ⟨n, [], h, by rw [natChars]; simp [h]⟩
  | case2 n h ih =>
    obtain ⟨k, t, hk, ht⟩ := ih
    exact ⟨k, t ++ [Nat.digitChar (n % 10)], hk, by rw [natChars]; simp [h, ht]⟩

theorem readNat_stop (acc : Nat) (l : List Char)
    (h : ∀ c r', l = c :: r' → c.isDigit = false) : readNat acc l = (acc, l) := by
  cases l with
  | nil => rfl
  | cons c r => simp [readNat, h c r rfl]

theorem readInt_intChars (i : Int) (rest : List Char)
    (h : ∀ c r', rest = c :: r' → c.isDigit = false) :
    readInt (intChars i ++ rest) = (i, rest) := by
  by_cases hi : i < 0
  · simp only [intChars, hi, if_pos, List.cons_append]
    have hm : ('-' : Char) = '-' := rfl
    simp only [readInt, hm, if_pos]
    rw [readNat_natChars, readNat_stop _ _ h]
    simp only [Nat.zero_mul, Nat.zero_add]
    refine Prod.ext ?_ rfl
    omega
  · simp only [intChars, hi, if_neg, if_false]
    obtain ⟨k, t, hk, ht⟩ := natChars_head i.natAbs
    have hne : Nat.digitChar k ≠ '-' := digitChar_ne_minus k hk
    have hi0 : i.natAbs = i.toNat := by omega
    rw [← hi0, ht, List.cons_append, readInt]
    simp only [hne, if_neg, if_false]
    rw [← List.cons_append, ← ht, readNat_natChars, readNat_stop _ _ h]
    simp only [Nat.zero_mul, Nat.zero_add]
    refine Prod.ext ?_ rfl
    omega

/-! ### Lemmas: hex escapes and string escaping -/

theorem hexVal_digitChar (k : Nat) (h : k < 16) : hexVal (Nat.digitChar k) = k := by
  interval_cases k <;> decide

theorem hex4_hexChars4 (n : Nat) (h : n < 65536) :
    hex4 (Nat.digitChar (n / 4096 % 16)) (Nat.digitChar (n / 256 % 16))
      (Nat.digitChar (n / 16 % 16)) (Nat.digitChar (n % 16)) = n := by
  rw [hex4, hexVal_digitChar (n / 4096 % 16) (by omega),
    hexVal_digitChar (n / 256 % 16) (by omega),
    hexVal_digitChar (n / 16 % 16) (by omega),
    hexVal_digitChar (n % 16) (by omega)]
  omega

theorem char_valid_nat (c : Char) :
    c.toNat < 55296 ∨ (57344 ≤ c.toNat ∧ c.toNat < 1114112) := by
  have h := c.valid
  unfold UInt32.isValidChar Nat.isValidChar at h
  exact h

/-! ### Lemmas: the escape decoder inverts the escape encoder -/

theorem unescEsc_quote (t : List Char) : unescEsc ('"' :: t) = some ('"', t) := by
  rw [unescEsc.eq_def]; simp

theorem unescEsc_bs (t : List Char) : unescEsc ('\\' :: t) = some ('\\', t) := by
  rw [unescEsc.eq_def]; simp

theorem unescEsc_b (t : List Char) : unescEsc ('b' :: t) = some (Char.ofNat 8, t) := by
  rw [unescEsc.eq_def]; simp

theorem unescEsc_f (t : List Char) : unescEsc ('f' :: t) = some (Char.ofNat 12, t) := by
  rw [unescEsc.eq_def]; simp

theorem unescEsc_n (t : List Char) : unescEsc ('n' :: t) = some ('\n', t) := by
  rw [unescEsc.eq_def]; simp

theorem unescEsc_r (t : List Char) : unescEsc ('r' :: t) = some ('\r', t) := by
  rw [unescEsc.eq_def]; simp

theorem unescEsc_t (t : List Char) : unescEsc ('t' :: t) = some ('\t', t) := by
  rw [unescEsc.eq_def]; simp

theorem unescEsc_u (h1 h2 h3 h4 : Char) (t2 : List Char) :
    unescEsc ('u' :: h1 :: h2 :: h3 :: h4 :: t2) = unescHex (hex4 h1 h2 h3 h4) t2 := by
  rw [unescEsc.eq_def]; simp

theorem unescHex_plain (v : Nat) (t : List Char) (hv : ¬(55296 ≤ v ∧ v < 56320)) :
    unescHex v t = some (Char.ofNat v, t) := by
  rw [unescHex.eq_def]; simp [hv]

theorem unescHex_pair (v : Nat) (g1 g2 g3 g4 : Char) (t3 : List Char)
    (hv : 55296 ≤ v ∧ v < 56320)
    (hw : 56320 ≤ hex4 g1 g2 g3 g4 ∧ hex4 g1 g2 g3 g4 < 57344) :
    unescHex v ('\\' :: 'u' :: g1 :: g2 :: g3 :: g4 :: t3)
      = some (Char.ofNat ((v - 55296) * 1024 + (hex4 g1 g2 g3 g4 - 56320) + 65536), t3) := by
  rw [unescHex.eq_def]; simp [hv.1, hv.2, hw.1, hw.2]

theorem readStrF_quote (k : Nat) (rest : List Char) :
    readStrF (k + 1) ('"' :: rest) = some ([], rest) := by
  rw [readStrF.eq_def]; simp

theorem readStrF_esc (k : Nat) (r rest : List Char) (d : Char)
    (h : unescEsc r = some (d, rest)) :
    readStrF (k + 1) ('\\' :: r) = (readStrF k rest).map (fun p => (d :: p.1, p.2)) := by
  rw [readStrF.eq_def]; simp [h]

theorem readStrF_plainc (k : Nat) (c : Char) (r : List Char) (h1 : c ≠ '"') (h2 : c ≠ '\\') :
    readStrF (k + 1) (c :: r) = (readStrF k r).map (fun p => (c :: p.1, p.2)) := by
  rw [readStrF.eq_def]; simp [h1, h2]

theorem readStrF_u_bmp (k : Nat) (rest : List Char) (v : Nat) (h16 : v < 65536)
    (hns : ¬(55296 ≤ v ∧ v < 56320)) :
    readStrF (k + 1) (('\\' :: 'u' :: hexChars4 v) ++ rest)
      = (readStrF k rest).map (fun p => (Char.ofNat v :: p.1, p.2)) := by
  simp only [hexChars4, List.cons_append, List.nil_append]
  refine readStrF_esc k _ rest _ ?_
  rw [unescEsc_u, hex4_hexChars4 v h16, unescHex_plain v rest hns]

theorem readStrF_u_pair (k : Nat) (rest : List Char) (v w : Nat)
    (hv : 55296 ≤ v ∧ v < 56320) (hw : 56320 ≤ w ∧ w < 57344) :
    readStrF (k + 1) (('\\' :: 'u' :: hexChars4 v) ++ ('\\' :: 'u' :: hexChars4 w) ++ rest)
      = (readStrF k rest).map
          (fun p => (Char.ofNat ((v - 55296) * 1024 + (w - 56320) + 65536) :: p.1, p.2)) := by
  simp only [hexChars4, List.cons_append, List.nil_append, List.append_assoc]
  refine readStrF_esc k _ rest _ ?_
  rw [unescEsc_u, hex4_hexChars4 v (by omega),
    unescHex_pair v _ _ _ _ _ (by omega) (by rw [hex4_hexChars4 w (by omega)]; omega),
    hex4_hexChars4 w (by omega)]

set_option maxHeartbeats 1600000 in
theorem readStrF_escChar (c : Char) (k : Nat) (rest : List Char) :
    readStrF (k + 1) (escChar c ++ rest) = (readStrF k rest).map (fun p => (c :: p.1, p.2)) := by
  rw [escChar]
  split_ifs with e1 e2 e3 e4 e5 e6 e7 e8 e9 e10
  · subst e1
    simp only [List.cons_append, List.nil_append]
    exact readStrF_esc k _ rest _ (unescEsc_quote rest)
  · subst e2
    simp only [List.cons_append, List.nil_append]
    exact readStrF_esc k _ rest _ (unescEsc_bs rest)
  · subst e3
    simp only [List.cons_append, List.nil_append]
    exact readStrF_esc k _ rest _ (unescEsc_b rest)
  · subst e4
    simp only [List.cons_append, List.nil_append]
    exact readStrF_esc k _ rest _ (unescEsc_f rest)
  · subst e5
    simp only [List.cons_append, List.nil_append]
    exact readStrF_esc k _ rest _ (unescEsc_n rest)
  · subst e6
    simp only [List.cons_append, List.nil_append]
    exact readStrF_esc k _ rest _ (unescEsc_r rest)
  · subst e7
    simp only [List.cons_append, List.nil_append]
    exact readStrF_esc k _ rest _ (unescEsc_t rest)
  · rw [readStrF_u_bmp k rest c.toNat (by omega) (by omega), Char.ofNat_toNat]
  · simp only [List.cons_append, List.nil_append]
    exact readStrF_plainc k c rest e1 e2
  · have hval := char_valid_nat c
    rw [readStrF_u_bmp k rest c.toNat (by omega) (by omega), Char.ofNat_toNat]
  · have hval := char_valid_nat c
    have hlt : c.toNat < 1114112 := by omega
    rw [readStrF_u_pair k rest (55296 + (c.toNat - 65536) / 1024)
      (56320 + (c.toNat - 65536) % 1024) (by omega) (by omega)]
    have harith : (55296 + (c.toNat - 65536) / 1024 - 55296) * 1024
        + (56320 + (c.toNat - 65536) % 1024 - 56320) + 65536 = c.toNat := by omega
    rw [harith, Char.ofNat_toNat]

theorem readStrF_escape (l : List Char) : ∀ (k : Nat) (rest : List Char),
    readStrF (l.length + k + 1) (escape l ++ '"' :: rest) = some (l, rest) := by
  induction l with
  | nil =>
    intro k rest
    rw [escape]
    simpa using readStrF_quote k rest
  | cons c t ih =>
    intro k rest
    have hf : (c :: t).length + k + 1 = (t.length + k + 1) + 1 := by
      simp only [List.length_cons]; omega
    rw [hf, escape, List.append_assoc, readStrF_escChar, ih]
    rfl

set_option maxHeartbeats 1600000 in
theorem escChar_length_pos (c : Char) : 1 ≤ (escChar c).length := by
  rw [escChar]
  split_ifs <;> simp [hexChars4]

theorem escape_length_ge (l : List Char) : l.length ≤ (escape l).length := by
  induction l with
  | nil => simp [escape]
  | cons c t ih =>
    rw [escape]
    have := escChar_length_pos c
    simp only [List.length_append, List.length_cons]
    omega

theorem readStrF_escape_full (l rest : List Char) :
    readStrF (escape l ++ '"' :: rest).length (escape l ++ '"' :: rest) = some (l, rest) := by
  have hge := escape_length_ge l
  have hf : (escape l ++ '"' :: rest).length
      = l.length + ((escape l).length - l.length + rest.length) + 1 := by
    simp only [List.length_append, List.length_cons]
    omega
  rw [hf, readStrF_escape]

/-! ### Lemmas: prefix matching -/

theorem checkPre_self (p t : List Char) : checkPre p (p ++ t) = some t := by
  induction p with
  | nil => rfl
  | cons a as ih => simp [checkPre, ih]

theorem checkPre_typed_click (t : List Char) : checkPre okTypedPre (okClickPre ++ t) = none := rfl

theorem checkPre_typed_err (t : List Char) : checkPre okTypedPre (errPre ++ t) = none := rfl

theorem checkPre_click_err (t : List Char) : checkPre okClickPre (errPre ++ t) = none := rfl

/-! ### Lemmas: framing, rate limiter, typing loop -/

theorem unpack4_pack4 (n : Nat) (h : n < 4294967296) : unpack4 (pack4 n) = n := by
  simp only [pack4, unpack4]
  omega

theorem read_message_frame (payload : List Nat) (h : payload.length ≤ MAX_MESSAGE_BYTES) :
    read_message (pack4 payload.length ++ payload) = (ReadEvent.frame payload, []) := by
  have htake : (pack4 payload.length ++ payload).take 4 = pack4 payload.length := by
    conv_lhs => rw [show (4 : Nat) = (pack4 payload.length).length from rfl]
    exact List.take_left _ _
  have hdrop : (pack4 payload.length ++ payload).drop 4 = payload := by
    conv_lhs => rw [show (4 : Nat) = (pack4 payload.length).length from rfl]
    exact List.drop_left _ _
  have hun : unpack4 (pack4 payload.length) = payload.length :=
    unpack4_pack4 _ (by unfold MAX_MESSAGE_BYTES at h; omega)
  have h4 : (pack4 payload.length).length = 4 := rfl
  rw [read_message]
  simp only [htake, hdrop, hun, h4]
  rw [if_neg (by omega : ¬(4 = 0)), if_neg (by omega : ¬(4 < 4)),
    if_neg (not_lt.mpr h), List.take_length,
    if_neg (by omega : ¬(payload.length < payload.length)), List.drop_length]

theorem prune_eq_filter (l : List Rat) (cutoff : Rat) (h : l.Pairwise (· ≤ ·)) :
    prune l cutoff = l.filter (fun t => decide (cutoff < t)) := by
  induction l with
  | nil => rfl
  | cons t ts ih =>
    have h1 : ∀ x ∈ ts, t ≤ x := fun x hx => List.rel_of_pairwise_cons h hx
    have h2 : ts.Pairwise (· ≤ ·) := h.of_cons
    by_cases hc : t ≤ cutoff
    · rw [prune, if_pos hc, ih h2, List.filter_cons]
      simp [decide_eq_false (not_lt.mpr hc)]
    · rw [prune, if_neg hc, List.filter_cons]
      have hd : decide (cutoff < t) = true := decide_eq_true (not_le.mp hc)
      rw [hd, if_pos rfl]
      congr 1
      refine (List.filter_eq_self.mpr ?_).symm
      intro x hx
      exact decide_eq_true (lt_of_lt_of_le (not_le.mp hc) (h1 x hx))

theorem typeText_ok (injT : Char → Except String Unit) (hinj : ∀ c, injT c = Except.ok ()) :
    ∀ (l : List Char) (q : Rat), typeText injT l (JVal.num q) = (Except.ok l.length, l) := by
  intro l q
  induction l with
  | nil => rfl
  | cons c cs ih =>
    rw [typeText, hinj c]
    simp only [pyGtZero, ih, List.length_cons]

/-! ### Lemma: decoding inverts response encoding -/

theorem decode_encode (r : Response) : decodeResponse (encodeResponse r) = some r := by
  cases r with
  | okTyped n =>
    rw [decodeResponse, encodeResponse, List.append_assoc, checkPre_self]
    show (if (readNat 0 (natChars n ++ ['\x7d'])).2 = ['\x7d']
        then some (Response.okTyped (readNat 0 (natChars n ++ ['\x7d'])).1) else none)
      = some (Response.okTyped n)
    rw [readNat_natChars, readNat_stop _ _ (by intro c r hcr; cases hcr; rfl)]
    simp
  | okClick x y =>
    rw [decodeResponse, encodeResponse]
    simp only [List.append_assoc]
    rw [checkPre_typed_click]
    show (match checkPre okClickPre
          (okClickPre ++ (intChars x ++ (",\"y\":".data ++ (intChars y ++ ['\x7d'])))) with
      | some r1 =>
        let p1 := readInt r1
        match checkPre ",\"y\":".data p1.2 with
        | some r2 =>
          let p2 := readInt r2
          if p2.2 = ['\x7d'] then some (Response.okClick p1.1 p2.1) else none
        | none => none
      | none =>
        match checkPre errPre
            (okClickPre ++ (intChars x ++ (",\"y\":".data ++ (intChars y ++ ['\x7d'])))) with
        | some r1 =>
          match readStrF r1.length r1 with
          | some p => if p.2 = ['\x7d'] then some (Response.error (String.mk p.1)) else none
          | none => none
        | none => none)
      = some (Response.okClick x y)
    rw [checkPre_self]
    show (match checkPre ",\"y\":".data
          (readInt (intChars x ++ (",\"y\":".data ++ (intChars y ++ ['\x7d'])))).2 with
      | some r2 =>
        let p2 := readInt r2
        if p2.2 = ['\x7d']
          then some (Response.okClick
            (readInt (intChars x ++ (",\"y\":".data ++ (intChars y ++ ['\x7d'])))).1 p2.1)
          else none
      | none => none)
      = some (Response.okClick x y)
    rw [readInt_intChars _ _ (by intro c r hcr; cases hcr; rfl)]
    show (match checkPre ",\"y\":".data (",\"y\":".data ++ (intChars y ++ ['\x7d'])) with
      | some r2 =>
        let p2 := readInt r2
        if p2.2 = ['\x7d'] then some (Response.okClick x p2.1) else none
      | none => none)
      = some (Response.okClick x y)
    rw [checkPre_self]
    show (if (readInt (intChars y ++ ['\x7d'])).2 = ['\x7d']
        then some (Response.okClick x (readInt (intChars y ++ ['\x7d'])).1) else none)
      = some (Response.okClick x y)
    rw [readInt_intChars _ _ (by intro c r hcr; cases hcr; rfl)]
    simp
  | error m =>
    rw [decodeResponse, encodeResponse]
    simp only [List.append_assoc]
    rw [checkPre_typed_err, checkPre_click_err]
    show (match checkPre errPre (errPre ++ (escape m.data ++ ['"', '\x7d'])) with
      | some r1 =>
        match readStrF r1.length r1 with
        | some p => if p.2 = ['\x7d'] then some (Response.error (String.mk p.1)) else none
        | none => none
      | none => none)
      = some (Response.error m)
    rw [checkPre_self]
    show (match readStrF (escape m.data ++ ['"', '\x7d']).length (escape m.data ++ ['"', '\x7d']) with
      | some p => if p.2 = ['\x7d'] then some (Response.error (String.mk p.1)) else none
      | none => none)
      = some (Response.error m)
    rw [show (['"', '\x7d'] : List Char) = '"' :: ['\x7d'] from rfl, readStrF_escape_full]
    show some (Response.error (String.mk m.data)) = some (Response.error m)
    cases m
    rfl

/-! ### Claims -/

/-- C1 (amended): for every monotone rate-limiter state and every time
`now`, the admission check discards exactly the timestamps `≤ now - 1`
(the window comparison is `<=`, so a timestamp exactly at `now - 1.0`
is discarded, not retained); if fewer than 20 remain it appends `now`
and allows, otherwise it denies without further mutation. -/
theorem c1_rate_limit (state : List Rat) (now : Rat)
    (hsorted : state.Pairwise (· ≤ ·)) :
    checkRateLimit state now =
      if (state.filter (fun t => decide (now - 1 < t))).length < 20 then
        (true, state.filter (fun t => decide (now - 1 < t)) ++ [now])
      else
        (false, state.filter (fun t => decide (now - 1 < t))) := by
  rw [checkRateLimit]
  simp only [prune_eq_filter _ _ hsorted, RATE_LIMIT_MAX]
  by_cases hl : (state.filter (fun t => decide (now - 1 < t))).length < 20
  · rw [if_neg (by omega), if_pos hl]
  · rw [if_pos (by omega), if_neg hl]

/-- C1 counterexample: with state `[0]` and `now = 1`, the timestamp
`0 = now - 1.0` sits exactly on the window boundary; the claim says it
is retained, but `_check_rate_limit` discards it (the admitted state
is `[1]`, not `[0, 1]`). -/
theorem c1_boundary_counterexample :
    checkRateLimit [(0 : Rat)] 1 = (true, [(1 : Rat)]) ∧
      ¬((0 : Rat) ∈ (checkRateLimit [(0 : Rat)] 1).2) := by
  constructor
  · norm_num [checkRateLimit, prune, RATE_LIMIT_MAX]
  · norm_num [checkRateLimit, prune, RATE_LIMIT_MAX]

/-- C1 witness: a concrete sorted state with an old and a fresh
timestamp. -/
theorem c1_rate_limit_witness :
    checkRateLimit [(0 : Rat), 1] (3 / 2) = (true, [(1 : Rat), 3 / 2]) := by
  have h := c1_rate_limit [(0 : Rat), 1] (3 / 2) (by norm_num)
  rw [h]
  norm_num [List.filter]

/-- C2: a fully delivered frame whose payload fails JSON decoding does
NOT update the activity timestamp: the `JSONDecodeError` (a `ValueError`
subclass) raised inside `read_message` is caught by the
`except ValueError` arm on line 157 and the loop continues before the
`last_activity` update on line 162, contradicting the claim (and spec
§4.3); the `except json.JSONDecodeError` handler on line 221 is dead
code. -/
theorem c2_json_failure_skips_activity :
    read_message invalidJsonFrame = (ReadEvent.frame [120], []) ∧
    mainIter decodeFailStub injOk injcOk [] 0 invalidJsonFrame =
      ⟨[Response.error "Expecting value: line 1 column 1 (char 0)"], false, [], none, []⟩ := by
  constructor <;> rfl

/-- C5: the framing layer's exit codes — a zero-byte length read exits
with code 0 (clean disconnect), a 1-to-3-byte length read exits with
code 1, and a short body read (fewer bytes than declared, for a
declared length within the cap so that the body read happens) also
exits with code 1. -/
theorem c5_framing_exit_codes (input pre body : List Nat) :
    (input = [] → read_message input = (ReadEvent.exits 0, [])) ∧
    (1 ≤ input.length → input.length ≤ 3 →
      read_message input = (ReadEvent.exits 1, [])) ∧
    (pre.length = 4 → unpack4 pre ≤ MAX_MESSAGE_BYTES → body.length < unpack4 pre →
      read_message (pre ++ body) = (ReadEvent.exits 1, [])) := by
  refine ⟨?_, ?_, ?_⟩
  · rintro rfl
    rfl
  · intro hge hle
    have ht : input.take 4 = input := List.take_of_length_le (by omega)
    rw [read_message]
    simp only [ht]
    rw [if_neg (by omega), if_pos (by omega)]
  · intro h4 hmax hlt
    have htake : (pre ++ body).take 4 = pre := by
      conv_lhs => rw [show (4 : Nat) = pre.length from h4.symm]
      exact List.take_left _ _
    have hdrop : (pre ++ body).drop 4 = body := by
      conv_lhs => rw [show (4 : Nat) = pre.length from h4.symm]
      exact List.drop_left _ _
    rw [read_message]
    simp only [htake, hdrop, h4]
    rw [if_neg (by omega), if_neg (by omega), if_neg (not_lt.mpr hmax),
      if_pos (by rw [List.length_take]; omega)]

/-- C5 witness: the three exit situations at concrete inputs — empty
stream, a 2-byte stream, and a frame declaring 1 body byte that never
arrives. -/
theorem c5_framing_exit_codes_witness :
    read_message [] = (ReadEvent.exits 0, []) ∧
    read_message [7, 7] = (ReadEvent.exits 1, []) ∧
    read_message [1, 0, 0, 0] = (ReadEvent.exits 1, []) :=
  ⟨(c5_framing_exit_codes [] [] []).1 rfl,
   (c5_framing_exit_codes [7, 7] [] []).2.1 (by decide) (by decide),
   by
     have h := (c5_framing_exit_codes [] [1, 0, 0, 0] []).2.2 rfl (by decide) (by decide)
     simpa using h⟩

/-- C6: a frame whose declared length exceeds `MAX_MESSAGE_BYTES` is
recoverable — the loop iteration sends an oversized-message error
Response and continues (no exit code), leaving the rate-limiter state
untouched and not updating the activity timestamp. -/
theorem c6_oversized_recoverable (decode : List Nat → Except String Message)
    (injT : Char → Except String Unit) (injC : Int → Int → Except String Unit)
    (ts : List Rat) (now : Rat) (pre body : List Nat)
    (h4 : pre.length = 4) (hbig : unpack4 pre > MAX_MESSAGE_BYTES) :
    mainIter decode injT injC ts now (pre ++ body) =
      ⟨[Response.error "Message exceeds 1048576 byte limit"], false, ts, none, body⟩ := by
  have htake : (pre ++ body).take 4 = pre := by
    conv_lhs => rw [show (4 : Nat) = pre.length from h4.symm]
    exact List.take_left _ _
  have hdrop : (pre ++ body).drop 4 = body := by
    conv_lhs => rw [show (4 : Nat) = pre.length from h4.symm]
    exact List.drop_left _ _
  have hread : read_message (pre ++ body) = (ReadEvent.tooLarge (unpack4 pre), body) := by
    rw [read_message]
    simp only [htake, hdrop, h4]
    rw [if_neg (by omega), if_neg (by omega), if_pos hbig]
  rw [mainIter, hread]

/-- C6 witness: a frame declaring 1,048,577 bytes (one over the cap). -/
theorem c6_oversized_recoverable_witness :
    mainIter decodeFailStub injOk injcOk [] 0 [1, 0, 16, 0] =
      ⟨[Response.error "Message exceeds 1048576 byte limit"], false, [], none, []⟩ := by
  have h := c6_oversized_recoverable decodeFailStub injOk injcOk [] 0
    [1, 0, 16, 0] [] rfl (by decide)
  simpa using h

/-- C9: framing then unframing a serialized Response returns the exact
payload bytes, and decoding that payload returns the original Response
value (for any response whose serialization fits the 1 MiB cap). -/
theorem c9_response_roundtrip (r : Response)
    (hlen : (encBytes r).length ≤ MAX_MESSAGE_BYTES) :
    read_message (send_message r) = (ReadEvent.frame (encBytes r), []) ∧
    decodeResponse (encodeResponse r) = some r := by
  constructor
  · rw [send_message]
    exact read_message_frame _ hlen
  · exact decode_encode r

/-- C9 witness: the round trip at a concrete error response. -/
theorem c9_response_roundtrip_witness :
    read_message (send_message (Response.error "hi"))
        = (ReadEvent.frame (encBytes (Response.error "hi")), []) ∧
      decodeResponse (encodeResponse (Response.error "hi")) = some (Response.error "hi") :=
  c9_response_roundtrip (Response.error "hi") (by decide)

/-- C4: for every valid `type` request with a non-empty text of at
most 10,000 characters, a numeric (or defaulted) delay, and an
injector whose per-character calls all succeed, the success Response
reports `typed` equal to the character count of the text. -/
theorem c4_typed_count (injT : Char → Except String Unit)
    (injC : Int → Int → Except String Unit) (m : Message) (s : String)
    (ha : mgetAction m = some (JVal.str "type"))
    (ht : mget m.text = some (JVal.str s))
    (hne : s ≠ "") (hlen : s.length ≤ 10000)
    (hdel : m.delay = none ∨ ∃ q : Rat, m.delay = some (JVal.num q))
    (hinj : ∀ c, injT c = Except.ok ()) :
    (dispatch injT injC m).1 = Response.okTyped s.length := by
  have hne0 : ¬s.length = 0 := by
    intro h0
    apply hne
    cases s with
    | mk data =>
      rw [show (String.mk data).length = data.length from rfl] at h0
      rw [List.length_eq_zero.mp h0]
  simp only [dispatch, ha, ht]
  rw [if_neg (show ¬s.length > MAX_TEXT_LENGTH from by unfold MAX_TEXT_LENGTH; omega),
    if_neg hne0]
  rcases hdel with hd | ⟨q, hd⟩ <;>
    simp only [hd] <;>
    rw [typeText_ok injT hinj] <;>
    rfl

/-- C4 witness: typing `"hi"` with an always-succeeding injector
reports 2 characters typed. -/
theorem c4_typed_count_witness :
    (dispatch injOk injcOk
      { action := some (JVal.str "type"), text := some (JVal.str "hi") }).1
      = Response.okTyped 2 := by
  have h := c4_typed_count injOk injcOk
    { action := some (JVal.str "type"), text := some (JVal.str "hi") } "hi"
    rfl rfl (by decide) (by decide) (Or.inl rfl) (fun c => rfl)
  simpa using h

/-- C7: a `type` request whose text exceeds 10,000 characters is
rejected with an error message citing the actual length and the
limit, and no injector call is made. -/
theorem c7_text_too_long (injT : Char → Except String Unit)
    (injC : Int → Int → Except String Unit) (m : Message) (s : String)
    (ha : mgetAction m = some (JVal.str "type"))
    (ht : mget m.text = some (JVal.str s))
    (hlen : s.length > 10000) :
    dispatch injT injC m =
      (Response.error ("Text too long (" ++ natStr s.length ++ " chars, limit 10000)"), []) := by
  simp only [dispatch, ha, ht]
  rw [if_pos (show s.length > MAX_TEXT_LENGTH from by unfold MAX_TEXT_LENGTH; omega)]
  exact if_pos trivial

/-- C7 witness: a 10,001-character text produces the exact error
message `Text too long (10001 chars, limit 10000)` and no calls. -/
theorem c7_text_too_long_witness :
    dispatch injOk injcOk
        { action := some (JVal.str "type"), text := some (JVal.str longText) }
      = (Response.error "Text too long (10001 chars, limit 10000)", []) := by
  have hlen : longText.length = 10001 := by
    rw [show longText.length = (List.replicate 10001 'a').length from rfl,
      List.length_replicate]
  have h := c7_text_too_long injOk injcOk
    { action := some (JVal.str "type"), text := some (JVal.str longText) } longText
    rfl rfl (by omega)
  rw [h, hlen]
  have hns : natStr 10001 = "10001" := by
    rw [natStr]
    rw [natChars]
    norm_num
    rw [natChars]
    norm_num
    rw [natChars]
    norm_num
    rw [natChars]
    norm_num
    rw [natChars]
    norm_num
    decide
  rw [hns]
  rfl

/-- C8: a `type` request with empty text short-circuits to the exact
success Response `{"status":"ok","typed":0}` with no injector call. -/
theorem c8_empty_text (injT : Char → Except String Unit)
    (injC : Int → Int → Except String Unit) (m : Message)
    (ha : mgetAction m = some (JVal.str "type"))
    (ht : mget m.text = some (JVal.str "")) :
    dispatch injT injC m = (Response.okTyped 0, []) ∧
      encodeResponse (Response.okTyped 0) = "\x7b\"status\":\"ok\",\"typed\":0\x7d".data := by
  constructor
  · simp only [dispatch, ha, ht]
    rw [if_neg (by decide : ¬("" : String).length > MAX_TEXT_LENGTH),
      if_pos (by decide : ("" : String).length = 0)]
    exact if_pos trivial
  · rw [encodeResponse, show natChars 0 = ['0'] from by rw [natChars]; decide]
    rfl

/-- C8 witness: the empty-text short circuit at a concrete request
(with an unrelated delay field present). -/
theorem c8_empty_text_witness :
    dispatch injOk injcOk
        { action := some (JVal.str "type"), text := some (JVal.str ""),
          delay := some (JVal.num 3) }
      = (Response.okTyped 0, []) ∧
      encodeResponse (Response.okTyped 0) = "\x7b\"status\":\"ok\",\"typed\":0\x7d".data :=
  c8_empty_text injOk injcOk _ rfl rfl

/-- C10: a `click` request with numeric coordinates is dispatched with
`int()` truncation toward zero: the injector receives the truncated
integers and the success Response echoes them (not the values sent). -/
theorem c10_click_truncation (injT : Char → Except String Unit)
    (injC : Int → Int → Except String Unit) (m : Message) (qx qy : Rat)
    (ha : mgetAction m = some (JVal.str "click"))
    (hx : mget m.x = some (JVal.num qx)) (hy : mget m.y = some (JVal.num qy))
    (hinj : injC (pyTrunc qx) (pyTrunc qy) = Except.ok ()) :
    dispatch injT injC m =
      (Response.okClick (pyTrunc qx) (pyTrunc qy),
        [Call.click (pyTrunc qx) (pyTrunc qy)]) := by
  simp only [dispatch, ha, hx, hy]
  rw [if_pos trivial]
  simp only [pyInt, hinj]
  exact if_neg (by decide)

/-- C10 witness: coordinates `x = 2.5`, `y = -3.5` are truncated
toward zero to `2` and `-3`, passed to the injector so, and echoed. -/
theorem c10_click_truncation_witness :
    dispatch injOk injcOk
        { action := some (JVal.str "click"), x := some (JVal.num (5 / 2)),
          y := some (JVal.num (-(7 / 2))) }
      = (Response.okClick 2 (-3), [Call.click 2 (-3)]) := by
  have h := c10_click_truncation injOk injcOk
    { action := some (JVal.str "click"), x := some (JVal.num (5 / 2)),
      y := some (JVal.num (-(7 / 2))) } (5 / 2) (-(7 / 2)) rfl rfl rfl rfl
  rw [h, show pyTrunc (5 / 2 : Rat) = 2 from by norm_num [pyTrunc],
    show pyTrunc (-(7 / 2) : Rat) = -3 from by norm_num [pyTrunc, Int.ceil_neg]]

/-- C3 (amended): the dispatcher validates that `text` is present, is
a string, and has length at most 10,000; `delay` is NOT validated — a
`type` request with a negative numeric delay proceeds to the injector
(the negative delay merely disables inter-character pausing) and
succeeds when injection succeeds. -/
theorem c3_type_validation (injT : Char → Except String Unit)
    (injC : Int → Int → Except String Unit) (m : Message)
    (ha : mgetAction m = some (JVal.str "type")) :
    (mget m.text = none →
      dispatch injT injC m = (Response.error "Missing \x27text\x27 field", [])) ∧
    (∀ v, mget m.text = some v → (∀ s, v ≠ JVal.str s) →
      dispatch injT injC m = (Response.error "\x27text\x27 must be a string", [])) ∧
    (∀ s, mget m.text = some (JVal.str s) → s.length > 10000 →
      dispatch injT injC m =
        (Response.error ("Text too long (" ++ natStr s.length ++ " chars, limit 10000)"), [])) ∧
    (∀ (s : String) (q : Rat), mget m.text = some (JVal.str s) → s ≠ "" →
      s.length ≤ 10000 → m.delay = some (JVal.num q) → q < 0 →
      (∀ c, injT c = Except.ok ()) →
      dispatch injT injC m = (Response.okTyped s.length, s.data.map Call.typeChar)) := by
  refine ⟨?_, ?_, ?_, ?_⟩
  · intro ht
    simp only [dispatch, ha, ht]
    exact if_pos trivial
  · intro v hv hns
    cases v with
    | str s => exact absurd rfl (hns s)
    | num q =>
      simp only [dispatch, ha, hv]
      exact if_pos trivial
    | bool b =>
      simp only [dispatch, ha, hv]
      exact if_pos trivial
    | null =>
      simp only [dispatch, ha, hv]
      exact if_pos trivial
  · intro s ht hlen
    simp only [dispatch, ha, ht]
    rw [if_pos (show s.length > MAX_TEXT_LENGTH from by unfold MAX_TEXT_LENGTH; omega)]
    exact if_pos trivial
  · intro s q ht hne hlen hd hneg hinj
    have hne0 : ¬s.length = 0 := by
      intro h0
      apply hne
      cases s with
      | mk data =>
        rw [show (String.mk data).length = data.length from rfl] at h0
        rw [List.length_eq_zero.mp h0]
    simp only [dispatch, ha, ht]
    rw [if_neg (show ¬s.length > MAX_TEXT_LENGTH from by unfold MAX_TEXT_LENGTH; omega),
      if_neg hne0]
    simp only [hd]
    rw [typeText_ok injT hinj]
    exact if_pos trivial

/-- C3 counterexample: a `type` request with `delay = -1` is NOT
rejected — the injector is invoked and the response is a success,
refuting the claim that a negative delay yields an error Response
without invoking the injector. -/
theorem c3_negative_delay_counterexample :
    dispatch injOk injcOk
        { action := some (JVal.str "type"), text := some (JVal.str "a"),
          delay := some (JVal.num (-1)) }
      = (Response.okTyped 1, [Call.typeChar 'a']) := by
  have ht := typeText_ok injOk (fun c => rfl) "a".data (-1)
  simp only [dispatch, mgetAction, mget]
  rw [if_neg (by decide : ¬("a" : String).length > MAX_TEXT_LENGTH),
    if_neg (by decide : ¬("a" : String).length = 0)]
  simp only [ht]
  exact if_pos trivial

/-- C3 witness: the four amended validation behaviours at concrete
requests — missing text, non-string text, over-long text, and a
negative delay passing through to a successful injection. -/
theorem c3_type_validation_witness :
    dispatch injOk injcOk { action := some (JVal.str "type") }
        = (Response.error "Missing \x27text\x27 field", []) ∧
    dispatch injOk injcOk
        { action := some (JVal.str "type"), text := some (JVal.num 5) }
        = (Response.error "\x27text\x27 must be a string", []) ∧
    dispatch injOk injcOk
        { action := some (JVal.str "type"), text := some (JVal.str longText) }
        = (Response.error ("Text too long (" ++ natStr longText.length ++ " chars, limit 10000)"), []) ∧
    dispatch injOk injcOk
        { action := some (JVal.str "type"), text := some (JVal.str "aa"),
          delay := some (JVal.num (-2)) }
        = (Response.okTyped "aa".length, "aa".data.map Call.typeChar) :=
  ⟨(c3_type_validation injOk injcOk { action := some (JVal.str "type") } rfl).1 rfl,
   (c3_type_validation injOk injcOk
       { action := some (JVal.str "type"), text := some (JVal.num 5) } rfl).2.1
     (JVal.num 5) rfl (by intro s h; cases h),
   (c3_type_validation injOk injcOk
       { action := some (JVal.str "type"), text := some (JVal.str longText) } rfl).2.2.1
     longText rfl
     (by rw [show longText.length = (List.replicate 10001 'a').length from rfl,
           List.length_replicate]
         norm_num),
   (c3_type_validation injOk injcOk
       { action := some (JVal.str "type"), text := some (JVal.str "aa"),
         delay := some (JVal.num (-2)) } rfl).2.2.2
     "aa" (-2) rfl (by decide) (by decide) rfl (by norm_num) (fun c => rfl)⟩

end KeystrokeSender
